import Mathlib

/-!
Verification of mintar/grasplan against its specification.

This file gives a shallow embedding of the two source files

  * src/grasplan/tools/support_plane_tools.py   (placement pose generator)
  * src/grasplan/rqt_grasplan/rqt_grasplan.py   (grasp editor panel)

Machine floats are modelled as exact rationals (ℚ) where the code only
moves, compares and rounds values, and as real numbers (ℝ) where the code
does trigonometry (quaternion/Euler conversions).  Randomness
(`random.uniform`) is modelled by an arbitrary stream of drawn values, so
every theorem quantifies over all possible random traces.  Python
exceptions (KeyError, ValueError, IndexError) are modelled by `Option`.
-/

namespace Grasplan

/-! ## Grasp editor data model (rqt_grasplan.py)

A grasp pose: position (x, y, z) and orientation quaternion (x, y, z, w),
as stored in `grasps_as_pose_array.poses`. -/

structure GraspPose where
  px : ℚ
  py : ℚ
  pz : ℚ
  qx : ℚ
  qy : ℚ
  qz : ℚ
  qw : ℚ
deriving DecidableEq

/-- `write_grasps_to_yaml_file` serializes every component with the Python
format `f'{v:.6f}'` (fixed 6 decimal places, rounding to the nearest
6-decimal value), and `load_grasps_from_yaml` parses the decimal text back
into a number.  The composition of the two maps a component `x` to the
nearest multiple of 10⁻⁶.  (Python breaks exact ties to even, the model
breaks them upward; every theorem below only uses the tie-independent
bound `|fmt6 x - x| ≤ 1/2 · 10⁻⁶`.) -/
def fmt6 (x : ℚ) : ℚ := ((round (x * 1000000) : ℤ) : ℚ) / 1000000

/-- Componentwise 6-decimal rounding of one `translation`/`rotation`
record, i.e. what one pose becomes after save + load. -/
def fmt6_pose (g : GraspPose) : GraspPose :=
  ⟨fmt6 g.px, fmt6 g.py, fmt6 g.pz, fmt6 g.qx, fmt6 g.qy, fmt6 g.qz, fmt6 g.qw⟩

/-- `write_grasps_to_yaml_file` followed by `load_grasps_from_yaml`:
the loader appends, in file order, one pose per `{translation, rotation}`
record that the writer emitted (one record per pose, in list order), so
the round trip is the componentwise 6-decimal rounding of the list. -/
def yaml_round_trip (grasps : List GraspPose) : List GraspPose :=
  grasps.map fmt6_pose

/-- The "delete all" branch of `handle_grasp_s_delete_button`
(chkGraspSAllGrasps checked), rqt_grasplan.py lines 363-374:
if exactly one pose remains it clears the list, otherwise it keeps a deep
copy of pose 0 only; afterwards `selected_pose` is set to -1.
On an empty list the `else` branch evaluates `poses[0]`, which raises
IndexError: modelled as `none`. -/
def handle_delete_all (poses : List GraspPose) : Option (List GraspPose × ℤ) :=
  if poses.length = 1 then some ([], -1)
  else
    match poses with
    | [] => none
    | p0 :: _ => some ([p0], -1)

/-- `update_selected_pose`, rqt_grasplan.py lines 301-313.
Arguments: the state of the chkGraspSAllGrasps checkbox, the integer
parsed from txtGraspSGraspNumbers, the current pose-list length, and the
current `selected_pose`.  Returns the Python return value and the new
`selected_pose`.  The source rejects only `grasp_number >= len(poses)`;
there is no lower-bound check. -/
def update_selected_pose (allChecked : Bool) (graspNumber : ℤ) (numPoses : ℕ)
    (selectedPose : ℤ) : Bool × ℤ :=
  if allChecked then (true, -10)
  else if (numPoses : ℤ) ≤ graspNumber then (false, selectedPose)
  else (true, graspNumber)

/-! ## Placement pose generator (support_plane_tools.py) -/

/-- The static object-height dictionary `ohd` of
`compute_object_height_for_insertion` (lines 47-56).  A missing key is a
Python KeyError, modelled as `none`. -/
def ohd (c : String) : Option ℚ :=
  if c = "power_drill_with_grip" then some (2205359935760498 / 10000000000000000)
  else if c = "klt" then some (14699999809265138 / 100000000000000000)
  else if c = "multimeter" then some (4206399992108345 / 100000000000000000)
  else if c = "relay" then some (10436400026082993 / 100000000000000000)
  else if c = "screwdriver" then some (34412000328302383 / 1000000000000000000)
  else if c = "insole" then some (21 / 100)
  else if c = "bag" then some (34 / 100)
  else none

/-- `compute_object_height_for_insertion(object_class_tbi,
support_obj_class, gap_between_objects)`:
`ohd[support_obj_class] / 2.0 + ohd[object_class_tbi] / 2.0 + gap`.
Either dictionary access may raise KeyError (`none`). -/
def compute_object_height_for_insertion (object_class_tbi support_obj_class : String)
    (gap_between_objects : ℚ) : Option ℚ :=
  match ohd support_obj_class, ohd object_class_tbi with
  | some hs, some ht => some (hs / 2 + ht / 2 + gap_between_objects)
  | _, _ => none

/-- A geometry_msgs Point restricted to its three coordinates. -/
structure Pt where
  x : ℚ
  y : ℚ
  z : ℚ
deriving DecidableEq

/-- `min(seq)` over a Python generator: raises ValueError on an empty
sequence (`none`). -/
def qmin : List ℚ → Option ℚ
  | [] => none
  | a :: l => some (l.foldl min a)

/-- `max(seq)` over a Python generator. -/
def qmax : List ℚ → Option ℚ
  | [] => none
  | a :: l => some (l.foldl max a)

/-- `adjust_plane` (support_plane_tools.py lines 198-242).
Raises ValueError (`none`) when the points do not all share one z
(`len(set(p.z for p in plane)) <= 1` is the source's test, modelled with
`dedup`).  Otherwise offsets every point by (x_offset, y_offset),
recomputes the axis-aligned min/max, and returns the canonical rectangle
[(min_x - x_extend, min_y - y_extend), (max_x + x_extend, min_y - y_extend),
 (max_x + x_extend, max_y + y_extend), (min_x - x_extend, max_y + y_extend)]
with z taken from `plane[0]`. -/
def adjust_plane (plane : List Pt) (x_extend y_extend x_offset y_offset : ℚ) :
    Option (List Pt) :=
  if 1 < ((plane.map Pt.z).dedup).length then none
  else
    match qmin ((plane.map (fun p => p.x + x_offset))),
          qmax ((plane.map (fun p => p.x + x_offset))),
          qmin ((plane.map (fun p => p.y + y_offset))),
          qmax ((plane.map (fun p => p.y + y_offset))),
          plane.head? with
    | some min_x, some max_x, some min_y, some max_y, some h =>
        some [⟨min_x - x_extend, min_y - y_extend, h.z⟩,
              ⟨max_x + x_extend, min_y - y_extend, h.z⟩,
              ⟨max_x + x_extend, max_y + y_extend, h.z⟩,
              ⟨min_x - x_extend, max_y + y_extend, h.z⟩]
    | _, _, _, _, _ => none

/-- The axis-aligned bounding box (min x, max x, min y, max y) of a point
list; the "bounding rectangle" the spec speaks about. -/
def bounds_xy (plane : List Pt) : Option (ℚ × ℚ × ℚ × ℚ) :=
  match qmin (plane.map Pt.x), qmax (plane.map Pt.x),
        qmin (plane.map Pt.y), qmax (plane.map Pt.y) with
  | some mnx, some mxx, some mny, some mxy => some (mnx, mxx, mny, mxy)
  | _, _, _, _ => none

/-- The unit-square plane (0,0,0),(1,0,0),(1,1,0),(0,1,0) used by the
spec's example scenarios. -/
def unit_square : List Pt := [⟨0, 0, 0⟩, ⟨1, 0, 0⟩, ⟨1, 1, 0⟩, ⟨0, 1, 0⟩]

/-! ## Rejection sampling (gen_place_poses_from_plane, lines 121-195) -/

/-- Squared Euclidean distance between two (x, y) pairs. -/
def dist2 (p q : ℚ × ℚ) : ℚ := (p.1 - q.1) ^ 2 + (p.2 - q.2) ^ 2

/-- `math.dist([candidate_x, candidate_y], p) > min_dist`, encoded without
square roots: for the nonnegative Euclidean distance √s we have
√s > d  ↔  d < 0 ∨ d² < s. -/
def dist_gt (p q : ℚ × ℚ) (d : ℚ) : Bool :=
  decide (d < 0) || decide (d ^ 2 < dist2 p q)

/-- `well_separated` (lines 121-130): true when the candidate's distance
to every point of `x_y_list` exceeds `min_dist` (counted via
`true_count == len(x_y_list)`). -/
def well_separated (x_y_list : List (ℚ × ℚ)) (candidate_x candidate_y : ℚ)
    (min_dist : ℚ) : Bool :=
  if x_y_list.length = 0 then true
  else
    if (x_y_list.filter (fun p => dist_gt (candidate_x, candidate_y) p min_dist)).length
        = x_y_list.length
    then true else false

/-- Result of one run of the inner `while 1` loop of
`gen_place_poses_from_plane`: the accepted candidate, whether the
50000-retry cap was hit (the `count > 50000` break), and the index of the
next unconsumed random draw. -/
structure SampleOut where
  pt : ℚ × ℚ
  cap : Bool
  next : ℕ
deriving DecidableEq

/-- The inner `while 1` loop (lines 148-159).  `stream k` models the k-th
pair of `round(random.uniform(...), 4)` draws; `count` is the retry
counter.  Each iteration draws a candidate; it is accepted immediately if
the support object is in the ignore list, or if it is well separated from
all previously accepted positions; otherwise `count` is incremented and
the candidate is accepted anyway (with a warning) once `count > 50000`. -/
def sample_candidate (ignore : Bool) (min_dist : ℚ) (x_y_list : List (ℚ × ℚ))
    (stream : ℕ → ℚ × ℚ) (k count : ℕ) : SampleOut :=
  if ignore then ⟨stream k, false, k + 1⟩
  else if well_separated x_y_list (stream k).1 (stream k).2 min_dist then
    ⟨stream k, false, k + 1⟩
  else if h : 50000 < count + 1 then ⟨stream k, true, k + 1⟩
  else sample_candidate ignore min_dist x_y_list stream (k + 1) (count + 1)
termination_by 50001 - count
decreasing_by omega

/-- The outer `for` loop of `gen_place_poses_from_plane` projected onto
its `x_y_list` accumulation: one entry per requested pose, paired with
the cap flag of the inner loop run that produced it (the source only logs
a warning there; the flag makes that observable). -/
def gen_xy (ignore : Bool) (min_dist : ℚ) (stream : ℕ → ℚ × ℚ) :
    ℕ → ℕ → List (ℚ × ℚ) → List ((ℚ × ℚ) × Bool)
  | 0, _, _ => []
  | n + 1, k, x_y_list =>
    let r := sample_candidate ignore min_dist x_y_list stream k 0
    (r.pt, r.cap) :: gen_xy ignore min_dist stream n r.next (x_y_list ++ [r.pt])

/-- The accepted (x, y) positions of one `gen_place_poses_from_plane`
call (lines 132-160): `min_dist` is forced to 0.03 when more than 100
poses are requested, the ignore flag is `support_object in
ignore_min_dist_list`, and `x_y_list` starts empty. -/
def gen_place_xy (support_object : String) (ignore_min_dist_list : List String)
    (number_of_poses : ℕ) (min_dist : ℚ) (stream : ℕ → ℚ × ℚ) :
    List ((ℚ × ℚ) × Bool) :=
  gen_xy (ignore_min_dist_list.contains support_object)
    (if 100 < number_of_poses then 3 / 100 else min_dist)
    stream number_of_poses 0 []

/-- One output entry of `gen_place_poses_from_plane`: the fields of the
appended ObjectPose message.  The message stores the orientation as
`tf.transformations.quaternion_from_euler(roll, pitch, yaw)`; the model
records the Euler angles fed to that conversion. -/
structure PlacePose where
  class_id : String
  x : ℚ
  y : ℚ
  z : ℚ
  roll : ℝ
  pitch : ℝ
  yaw : ℝ
  instance_id : ℕ

/-- The `for _ in range(7)` yaw sweep (lines 176-185): seven poses at one
accepted position, starting at yaw 0 and stepping by 0.5 radians, with
consecutive instance ids. -/
noncomputable def yaw_sweep (cls : String) (x y z : ℚ) (roll pitch : ℝ)
    (yaw : ℝ) (pid : ℕ) : ℕ → List PlacePose
  | 0 => []
  | m + 1 =>
    ⟨cls, x, y, z, roll, pitch, yaw, pid⟩ ::
      yaw_sweep cls x y z roll pitch (yaw + 1 / 2) (pid + 1) m

/-- The outer `for` loop of `gen_place_poses_from_plane` (lines 144-194),
producing the full output list.  `z_height` models
`attached_obj_height(support_object, planning_scene)`; `yaw_stream j`
models the `round(random.uniform(0.0, math.pi), 4)` draw for the j-th
accepted position; `pid` is `place_poses_id`.  When the total requested
count exceeds 20 each accepted position is expanded by the 7-step yaw
sweep, otherwise a single pose with the sampled yaw is emitted.  The
roll is -π/2 for the class `power_drill_with_grip` and 0 otherwise. -/
noncomputable def gen_place_loop (cls : String) (ignore : Bool) (nTotal : ℕ)
    (min_dist : ℚ) (z_height : ℚ) (stream : ℕ → ℚ × ℚ) (yaw_stream : ℕ → ℝ) :
    ℕ → ℕ → ℕ → ℕ → List (ℚ × ℚ) → List PlacePose
  | 0, _, _, _, _ => []
  | m + 1, k, j, pid, x_y_list =>
    let r := sample_candidate ignore min_dist x_y_list stream k 0
    (if 20 < nTotal then
      yaw_sweep cls r.pt.1 r.pt.2 z_height
        (if cls = "power_drill_with_grip" then -(Real.pi / 2) else 0) 0 0 pid 7
    else
      [⟨cls, r.pt.1, r.pt.2, z_height,
        (if cls = "power_drill_with_grip" then -(Real.pi / 2) else 0), 0,
        yaw_stream j, pid⟩]) ++
    gen_place_loop cls ignore nTotal min_dist z_height stream yaw_stream
      m r.next (j + 1) (pid + if 20 < nTotal then 7 else 1) (x_y_list ++ [r.pt])

/-- `gen_place_poses_from_plane` (lines 132-195), with the plane, the
planning scene and the random generator abstracted into `z_height`,
`stream` and `yaw_stream` as described on `gen_place_loop`. -/
noncomputable def gen_place_poses_from_plane (object_class support_object : String)
    (number_of_poses : ℕ) (min_dist : ℚ) (ignore_min_dist_list : List String)
    (z_height : ℚ) (stream : ℕ → ℚ × ℚ) (yaw_stream : ℕ → ℝ) : List PlacePose :=
  gen_place_loop object_class (ignore_min_dist_list.contains support_object)
    number_of_poses
    (if 100 < number_of_poses then 3 / 100 else min_dist)
    z_height stream yaw_stream number_of_poses 0 0 1 []

/-- The seven yaw values 0, 0.5, 1.0, 1.5, 2.0, 2.5, 3.0 produced by the
yaw sweep. -/
noncomputable def yaw7 : List ℝ := [0, 1 / 2, 1, 3 / 2, 2, 5 / 2, 3]

/-! ## Quaternion arithmetic (tf.transformations, as used by the editor) -/

/-- A quaternion in (x, y, z, w) component order, over exact reals. -/
structure Quat where
  x : ℝ
  y : ℝ
  z : ℝ
  w : ℝ

/-- `tf.transformations.quaternion_multiply(q1, q0)` (Hamilton product in
xyzw layout). -/
noncomputable def quaternion_multiply (q1 q0 : Quat) : Quat :=
  ⟨q1.x * q0.w + q1.y * q0.z - q1.z * q0.y + q1.w * q0.x,
   -q1.x * q0.z + q1.y * q0.w + q1.z * q0.x + q1.w * q0.y,
   q1.x * q0.y - q1.y * q0.x + q1.z * q0.w + q1.w * q0.z,
   -q1.x * q0.x - q1.y * q0.y - q1.z * q0.z + q1.w * q0.w⟩

/-- `tf.transformations.quaternion_from_euler(ai, aj, ak)` with the
default 'sxyz' axes: half-angle products placed into (x, y, z, w). -/
noncomputable def quaternion_from_euler (ai aj ak : ℝ) : Quat :=
  let ci := Real.cos (ai / 2)
  let si := Real.sin (ai / 2)
  let cj := Real.cos (aj / 2)
  let sj := Real.sin (aj / 2)
  let ck := Real.cos (ak / 2)
  let sk := Real.sin (ak / 2)
  ⟨cj * (si * ck) - sj * (ci * sk),
   cj * (si * sk) + sj * (ci * ck),
   cj * (ci * sk) - sj * (si * ck),
   cj * (ci * ck) + sj * (si * sk)⟩

/-- `RqtGrasplan.rotate_quaternion` (rqt_grasplan.py lines 443-461):
new = Δq ⬝ q_orig with Δq built from the given roll/pitch/yaw. -/
noncomputable def rotate_quaternion (quaternion : Quat) (roll pitch yaw : ℝ) : Quat :=
  quaternion_multiply (quaternion_from_euler roll pitch yaw) quaternion

/-- Quaternion negation; -q represents the same 3-D rotation as q. -/
noncomputable def quat_neg (q : Quat) : Quat := ⟨-q.x, -q.y, -q.z, -q.w⟩

/-! ## Circular pattern (handle_edit_g_apply_button, lines 408-441) -/

/-- An editor pose: position plus orientation quaternion, over ℝ. -/
structure PoseR where
  pos : ℝ × ℝ × ℝ
  ori : Quat

/-- Default pose used only to totalize list indexing. -/
noncomputable def default_pose : PoseR := ⟨(0, 0, 0), ⟨0, 0, 0, 1⟩⟩

/-- `derived_grasp`: a deep copy of a pose with its orientation rotated
by `rotate_quaternion` (position untouched). -/
noncomputable def rotate_pose (p : PoseR) (roll pitch yaw : ℝ) : PoseR :=
  ⟨p.pos, rotate_quaternion p.ori roll pitch yaw⟩

/-- The `for pattern_grasp in range(number_of_grasps - 1)` chain of the
circular pattern with only the Z axis checked: each generated pose is the
previous generated pose (`grasp_pose = deepcopy(derived_grasp)`) rotated
by the angular step about z. -/
noncomputable def chain_poses (ang_step : ℝ) (grasp_pose : PoseR) : ℕ → List PoseR
  | 0 => []
  | m + 1 =>
    rotate_pose grasp_pose 0 0 ang_step ::
      chain_poses ang_step (rotate_pose grasp_pose 0 0 ang_step) m

/-- The circular-pattern branch of `handle_edit_g_apply_button` for a
single selected pose (selection ≠ -10) with only chkEditGAxisZ checked:
appends `number_of_grasps - 1` chained poses and, whenever at least one
pose was appended, leaves `selected_pose` at the index of the last
appended pose (it is rewritten to `len(poses) - 1` on every iteration);
with no iterations the selection stays at the selected index. -/
noncomputable def circular_pattern_z (poses : List PoseR) (sel : ℕ) (ang_step : ℝ)
    (number_of_grasps : ℕ) : List PoseR × ℤ :=
  let appended := chain_poses ang_step (poses.getD sel default_pose)
    (number_of_grasps - 1)
  (poses ++ appended,
   if number_of_grasps - 1 = 0 then (sel : ℤ)
   else ((poses.length + appended.length : ℕ) : ℤ) - 1)

/-- A concrete identity grasp pose, used for concrete instantiations. -/
def g0 : GraspPose := ⟨0, 0, 0, 0, 0, 0, 1⟩

/-- A concrete grasp pose with a non-terminating decimal component. -/
def gex : GraspPose := ⟨1 / 3, 0, 0, 0, 0, 0, 1⟩

/-! ## Theorems -/

/-- `|fmt6 x - x| ≤ 1/2 · 10⁻⁶`: the 6-decimal serialization moves a
component by at most half of the last kept decimal place. -/
theorem fmt6_close (x : ℚ) : |fmt6 x - x| ≤ 1 / 2000000 := by
  have h : |x * 1000000 - (round (x * 1000000) : ℚ)| ≤ 1 / 2 :=
    abs_sub_round (x * 1000000)
  have e : fmt6 x - x = -((x * 1000000 - ((round (x * 1000000) : ℤ) : ℚ)) / 1000000) := by
    rw [fmt6]; ring
  rw [e, abs_neg, abs_div]
  have h6 : |(1000000 : ℚ)| = 1000000 := by norm_num
  rw [h6]
  linarith

/-- C2: For every pose list, saving it to the YAML file (6-decimal fixed
precision per translation/rotation component) and loading it back yields
a pose list of the same length whose translation and rotation values
equal the originals to 6-decimal precision (each component moves by at
most 1/2 · 10⁻⁶). -/
theorem C2_yaml_round_trip_precision (grasps : List GraspPose) :
    (yaml_round_trip grasps).length = grasps.length ∧
    ∀ (i : ℕ) (g : GraspPose), grasps[i]? = some g →
      ∃ g2, (yaml_round_trip grasps)[i]? = some g2 ∧
        |g2.px - g.px| ≤ 1 / 2000000 ∧ |g2.py - g.py| ≤ 1 / 2000000 ∧
        |g2.pz - g.pz| ≤ 1 / 2000000 ∧ |g2.qx - g.qx| ≤ 1 / 2000000 ∧
        |g2.qy - g.qy| ≤ 1 / 2000000 ∧ |g2.qz - g.qz| ≤ 1 / 2000000 ∧
        |g2.qw - g.qw| ≤ 1 / 2000000 := by
  constructor
  · simp [yaml_round_trip]
  · intro i g hg
    refine ⟨fmt6_pose g, ?_, fmt6_close _, fmt6_close _, fmt6_close _, fmt6_close _,
      fmt6_close _, fmt6_close _, fmt6_close _⟩
    rw [yaml_round_trip, List.getElem?_map, hg]
    rfl

/-- Witness for C2 at the concrete one-element list [gex]. -/
theorem C2_witness :
    ([gex][0]? = some gex) ∧
    ((yaml_round_trip [gex]).length = [gex].length ∧
      ∃ g2, (yaml_round_trip [gex])[0]? = some g2 ∧
        |g2.px - gex.px| ≤ 1 / 2000000 ∧ |g2.py - gex.py| ≤ 1 / 2000000 ∧
        |g2.pz - gex.pz| ≤ 1 / 2000000 ∧ |g2.qx - gex.qx| ≤ 1 / 2000000 ∧
        |g2.qy - gex.qy| ≤ 1 / 2000000 ∧ |g2.qz - gex.qz| ≤ 1 / 2000000 ∧
        |g2.qw - gex.qw| ≤ 1 / 2000000) :=
  ⟨rfl, (C2_yaml_round_trip_precision [gex]).1,
    (C2_yaml_round_trip_precision [gex]).2 0 gex rfl⟩

/-- C3 counterexample: on the non-empty single-pose list [g0] one
invocation of delete with "all" selected yields the empty list (with
selection -1), not a single-element list containing the original first
pose, refuting the claim's "invoking it once yields a single-element
list containing the original first pose" for this non-empty input. -/
theorem C3_counterexample :
    handle_delete_all [g0] = some ([], -1) ∧ ([] : List GraspPose) ≠ [g0] := by
  constructor
  · rfl
  · simp

/-- C3 (amended): delete with "all" selected resets the selection to -1
and: on a list with at least two poses one invocation leaves exactly the
original first pose and a second invocation then empties the list; on a
single-pose list a single invocation already empties the list (and a
further invocation on the now-empty list raises IndexError, modelled as
`none`). -/
theorem C3_delete_all_amended (p0 p1 : GraspPose) (rest : List GraspPose) :
    handle_delete_all (p0 :: p1 :: rest) = some ([p0], -1) ∧
    ((handle_delete_all (p0 :: p1 :: rest)).bind fun s => handle_delete_all s.1)
      = some ([], -1) ∧
    handle_delete_all [p0] = some ([], -1) ∧
    handle_delete_all [] = none := by
  have hlen : (p0 :: p1 :: rest).length ≠ 1 := by simp
  have h1 : handle_delete_all (p0 :: p1 :: rest) = some ([p0], -1) := by
    rw [handle_delete_all, if_neg hlen]
  refine ⟨h1, ?_, rfl, rfl⟩
  rw [h1]
  rfl

/-- C6 counterexample: with the "all" checkbox unchecked, entering
index -2 on a one-pose list is accepted (the function returns True and
sets the selection to -2) even though -2 is outside the bounds 0..0,
refuting "an out-of-range index is reported and rejected, leaving the
selection state unchanged". -/
theorem C6_counterexample :
    update_selected_pose false (-2) 1 (-1) = (true, -2) ∧ ¬((0 : ℤ) ≤ -2) := by
  constructor
  · rfl
  · decide

/-- C6 (amended): only the upper bound is validated: an index ≥ n is
reported and rejected, leaving the selection unchanged (and the pose
list is never touched), but any index < n — including negative indices —
is accepted and becomes the selection; the "all" choice always succeeds
with the sentinel -10. -/
theorem C6_update_selected_pose_amended (allChecked : Bool) (graspNumber : ℤ)
    (numPoses : ℕ) (selectedPose : ℤ) :
    (allChecked = true →
      update_selected_pose allChecked graspNumber numPoses selectedPose = (true, -10)) ∧
    (allChecked = false → (numPoses : ℤ) ≤ graspNumber →
      update_selected_pose allChecked graspNumber numPoses selectedPose
        = (false, selectedPose)) ∧
    (allChecked = false → graspNumber < (numPoses : ℤ) →
      update_selected_pose allChecked graspNumber numPoses selectedPose
        = (true, graspNumber)) := by
  refine ⟨?_, ?_, ?_⟩
  · intro h; rw [update_selected_pose, if_pos h]
  · intro h hle
    rw [update_selected_pose, h]
    simp only [Bool.false_eq_true, if_false]
    rw [if_pos hle]
  · intro h hlt
    rw [update_selected_pose, h]
    simp only [Bool.false_eq_true, if_false]
    rw [if_neg (not_le.mpr hlt)]

/-- Witness for C6 (amended) at concrete inputs: index 5 on a 3-pose
list is rejected, index 2 is accepted. -/
theorem C6_witness :
    update_selected_pose false 5 3 (-1) = (false, -1) ∧
    update_selected_pose false 2 3 (-1) = (true, 2) :=
  ⟨(C6_update_selected_pose_amended false 5 3 (-1)).2.1 rfl (by decide),
   (C6_update_selected_pose_amended false 2 3 (-1)).2.2 rfl (by decide)⟩

/-- C9: for support and inserted classes present in the static height
table, `compute_object_height_for_insertion` returns the support's
half-height plus the inserted object's half-height plus the gap; if
either class is absent the dictionary lookup is a KeyError (`none`). -/
theorem C9_compute_object_height (object_class_tbi support_obj_class : String)
    (gap_between_objects hs ht : ℚ) :
    (ohd support_obj_class = some hs → ohd object_class_tbi = some ht →
      compute_object_height_for_insertion object_class_tbi support_obj_class
        gap_between_objects = some (hs / 2 + ht / 2 + gap_between_objects)) ∧
    (ohd support_obj_class = none ∨ ohd object_class_tbi = none →
      compute_object_height_for_insertion object_class_tbi support_obj_class
        gap_between_objects = none) := by
  constructor
  · intro h1 h2
    rw [compute_object_height_for_insertion, h1, h2]
  · rintro (h | h)
    · rw [compute_object_height_for_insertion, h]
    · rw [compute_object_height_for_insertion, h]
      cases ohd support_obj_class <;> rfl

/-- Witness for C9: inserting a klt onto a relay with the default 0.02
gap, and a KeyError for the unknown class "table". -/
theorem C9_witness :
    compute_object_height_for_insertion "klt" "relay" (1 / 50)
      = some (10436400026082993 / 100000000000000000 / 2
          + 14699999809265138 / 100000000000000000 / 2 + 1 / 50) ∧
    compute_object_height_for_insertion "klt" "table" (1 / 50) = none :=
  ⟨(C9_compute_object_height "klt" "relay" (1 / 50)
      (10436400026082993 / 100000000000000000)
      (14699999809265138 / 100000000000000000)).1 (by rfl) (by rfl),
   (C9_compute_object_height "klt" "table" (1 / 50) 0 0).2 (Or.inl (by rfl))⟩

/-- Four equal z values dedup to a single one (Python `set`). -/
theorem dedup_four_eq (a : ℚ) : ([a, a, a, a] : List ℚ).dedup = [a] := by
  simp [List.dedup_cons_of_mem, List.dedup_cons_of_not_mem]

/-- `adjust_plane` on a coplanar 4-point plane: the ValueError check
passes and the result is the canonical rectangle written with explicit
min/max chains over the input coordinates. -/
theorem adjust_plane_four (p0 p1 p2 p3 : Pt) (xe ye xo yo : ℚ)
    (hz1 : p1.z = p0.z) (hz2 : p2.z = p0.z) (hz3 : p3.z = p0.z) :
    adjust_plane [p0, p1, p2, p3] xe ye xo yo =
      some [⟨min (min (min p0.x p1.x) p2.x) p3.x + xo - xe,
             min (min (min p0.y p1.y) p2.y) p3.y + yo - ye, p0.z⟩,
            ⟨max (max (max p0.x p1.x) p2.x) p3.x + xo + xe,
             min (min (min p0.y p1.y) p2.y) p3.y + yo - ye, p0.z⟩,
            ⟨max (max (max p0.x p1.x) p2.x) p3.x + xo + xe,
             max (max (max p0.y p1.y) p2.y) p3.y + yo + ye, p0.z⟩,
            ⟨min (min (min p0.x p1.x) p2.x) p3.x + xo - xe,
             max (max (max p0.y p1.y) p2.y) p3.y + yo + ye, p0.z⟩] := by
  rw [adjust_plane]
  have hd : (([p0, p1, p2, p3].map Pt.z).dedup) = [p0.z] := by
    simp only [List.map_cons, List.map_nil, hz1, hz2, hz3]
    exact dedup_four_eq p0.z
  rw [hd]
  rw [if_neg (by norm_num)]
  simp only [List.map_cons, List.map_nil, qmin, qmax, List.foldl, List.head?]
  simp only [min_add_add_right, max_add_add_right]

/-- The bounding box of an explicit 4-point list, as min/max chains. -/
theorem bounds_xy_four (q0 q1 q2 q3 : Pt) :
    bounds_xy [q0, q1, q2, q3]
      = some (min (min (min q0.x q1.x) q2.x) q3.x,
              max (max (max q0.x q1.x) q2.x) q3.x,
              min (min (min q0.y q1.y) q2.y) q3.y,
              max (max (max q0.y q1.y) q2.y) q3.y) := by
  simp only [bounds_xy, List.map_cons, List.map_nil, qmin, qmax, List.foldl]

theorem min4_collapse (A B : ℚ) (h : A ≤ B) : min (min (min A B) B) A = A := by
  rw [min_eq_left h, min_eq_left h, min_self]

theorem max4_collapse (A B : ℚ) (h : A ≤ B) : max (max (max A B) B) A = B := by
  rw [max_eq_right h, max_self, max_eq_left h]

theorem min4_collapse2 (A B : ℚ) (h : A ≤ B) : min (min (min A A) B) B = A := by
  rw [min_self, min_eq_left h, min_eq_left h]

theorem max4_collapse2 (A B : ℚ) (h : A ≤ B) : max (max (max A A) B) B = B := by
  rw [max_self, max_eq_right h, max_eq_right (le_refl B)]

theorem min4_le (a b c d : ℚ) : min (min (min a b) c) d ≤ a :=
  le_trans (min_le_left _ _) (le_trans (min_le_left _ _) (min_le_left _ _))

theorem le_max4 (a b c d : ℚ) : a ≤ max (max (max a b) c) d :=
  le_trans (le_trans (le_max_left _ _) (le_max_left _ _)) (le_max_left _ _)

/-- A list with two distinct members keeps more than one element after
dedup (Python's `set` has more than one element). -/
theorem one_lt_dedup_length {l : List ℚ} {a b : ℚ} (ha : a ∈ l) (hb : b ∈ l)
    (hab : a ≠ b) : 1 < l.dedup.length := by
  by_contra h
  push_neg at h
  have ha2 : a ∈ l.dedup := List.mem_dedup.mpr ha
  have hb2 : b ∈ l.dedup := List.mem_dedup.mpr hb
  rcases hd : l.dedup with _ | ⟨u, _ | ⟨v, t⟩⟩
  · rw [hd] at ha2; exact absurd ha2 (List.not_mem_nil a)
  · rw [hd] at ha2 hb2
    simp only [List.mem_singleton] at ha2 hb2
    exact hab (ha2.trans hb2.symm)
  · rw [hd] at h; simp at h

/-- C10: for every coplanar 4-point input in any corner order,
`adjust_plane` returns its four corners in the fixed canonical winding
order (min_x - x_extend, min_y - y_extend), (max_x + x_extend,
min_y - y_extend), (max_x + x_extend, max_y + y_extend),
(min_x - x_extend, max_y + y_extend) — where min/max are taken over the
offset-shifted input points — and every output point's z equals the
common input z. -/
theorem C10_adjust_plane_canonical (p0 p1 p2 p3 : Pt) (xe ye xo yo : ℚ)
    (hz1 : p1.z = p0.z) (hz2 : p2.z = p0.z) (hz3 : p3.z = p0.z) :
    adjust_plane [p0, p1, p2, p3] xe ye xo yo =
      some [⟨min (min (min p0.x p1.x) p2.x) p3.x + xo - xe,
             min (min (min p0.y p1.y) p2.y) p3.y + yo - ye, p0.z⟩,
            ⟨max (max (max p0.x p1.x) p2.x) p3.x + xo + xe,
             min (min (min p0.y p1.y) p2.y) p3.y + yo - ye, p0.z⟩,
            ⟨max (max (max p0.x p1.x) p2.x) p3.x + xo + xe,
             max (max (max p0.y p1.y) p2.y) p3.y + yo + ye, p0.z⟩,
            ⟨min (min (min p0.x p1.x) p2.x) p3.x + xo - xe,
             max (max (max p0.y p1.y) p2.y) p3.y + yo + ye, p0.z⟩] :=
  adjust_plane_four p0 p1 p2 p3 xe ye xo yo hz1 hz2 hz3

/-- Witness for C10: the unit square, shuffled into a non-canonical
corner order, with nonzero extends and offsets. -/
theorem C10_witness :
    adjust_plane [(⟨1, 1, 0⟩ : Pt), ⟨0, 1, 0⟩, ⟨1, 0, 0⟩, ⟨0, 0, 0⟩] 2 3 5 7 =
      some [⟨min (min (min 1 0) 1) 0 + 5 - 2, min (min (min 1 1) 0) 0 + 7 - 3, 0⟩,
            ⟨max (max (max 1 0) 1) 0 + 5 + 2, min (min (min 1 1) 0) 0 + 7 - 3, 0⟩,
            ⟨max (max (max 1 0) 1) 0 + 5 + 2, max (max (max 1 1) 0) 0 + 7 + 3, 0⟩,
            ⟨min (min (min 1 0) 1) 0 + 5 - 2, max (max (max 1 1) 0) 0 + 7 + 3, 0⟩] :=
  C10_adjust_plane_canonical ⟨1, 1, 0⟩ ⟨0, 1, 0⟩ ⟨1, 0, 0⟩ ⟨0, 0, 0⟩ 2 3 5 7 rfl rfl rfl

/-- C7 counterexample: on the coplanar unit square, applying
`adjust_plane` with x_extend = -1 and then with x_extend = 1 does not
return the original bounds: the first call contracts past the midline
(the corners swap sides), so the second call expands outward to the
bounding box (-1, 2, 0, 1) instead of (0, 1, 0, 1), refuting the
universally quantified extend-then-undo round-trip part of the claim. -/
theorem C7_counterexample :
    ((adjust_plane unit_square (-1) 0 0 0).bind fun q =>
      adjust_plane q 1 0 0 0).bind bounds_xy ≠ bounds_xy unit_square := by
  have e0 : unit_square = [(⟨0, 0, 0⟩ : Pt), ⟨1, 0, 0⟩, ⟨1, 1, 0⟩, ⟨0, 1, 0⟩] := rfl
  have h1 : adjust_plane unit_square (-1) 0 0 0
      = some [⟨1, 0, 0⟩, ⟨0, 0, 0⟩, ⟨0, 1, 0⟩, ⟨1, 1, 0⟩] := by
    rw [e0, adjust_plane_four ⟨0, 0, 0⟩ ⟨1, 0, 0⟩ ⟨1, 1, 0⟩ ⟨0, 1, 0⟩ (-1) 0 0 0 rfl rfl rfl]
    norm_num [min_def, max_def, Pt.mk.injEq]
  have h2 : adjust_plane [(⟨1, 0, 0⟩ : Pt), ⟨0, 0, 0⟩, ⟨0, 1, 0⟩, ⟨1, 1, 0⟩] 1 0 0 0
      = some [⟨-1, 0, 0⟩, ⟨2, 0, 0⟩, ⟨2, 1, 0⟩, ⟨-1, 1, 0⟩] := by
    rw [adjust_plane_four ⟨1, 0, 0⟩ ⟨0, 0, 0⟩ ⟨0, 1, 0⟩ ⟨1, 1, 0⟩ 1 0 0 0 rfl rfl rfl]
    norm_num [min_def, max_def, Pt.mk.injEq]
  have h3 : bounds_xy [(⟨-1, 0, 0⟩ : Pt), ⟨2, 0, 0⟩, ⟨2, 1, 0⟩, ⟨-1, 1, 0⟩]
      = some (-1, 2, 0, 1) := by
    rw [bounds_xy_four]
    norm_num [min_def, max_def]
  have h4 : bounds_xy unit_square = some (0, 1, 0, 1) := by
    rw [e0, bounds_xy_four]
    norm_num [min_def, max_def]
  rw [h1, Option.some_bind, h2, Option.some_bind, h3, h4]
  norm_num

/-- C7 (amended): on a coplanar 4-point plane, `adjust_plane` with all
deltas zero preserves the bounding rectangle, and `adjust_plane` with
x_extend = d followed by x_extend = -d returns the original bounds
provided the contraction does not invert the rectangle, i.e.
min_x - d ≤ max_x + d; for a non-coplanar input (more than one distinct
z) `adjust_plane` raises ValueError (`none`), for any deltas. -/
theorem C7_adjust_plane_amended (p0 p1 p2 p3 : Pt) (d xe ye xo yo : ℚ) :
    (p1.z = p0.z ∧ p2.z = p0.z ∧ p3.z = p0.z →
      (adjust_plane [p0, p1, p2, p3] 0 0 0 0).bind bounds_xy
        = bounds_xy [p0, p1, p2, p3]) ∧
    (p1.z = p0.z ∧ p2.z = p0.z ∧ p3.z = p0.z →
      min (min (min p0.x p1.x) p2.x) p3.x - d
          ≤ max (max (max p0.x p1.x) p2.x) p3.x + d →
      ((adjust_plane [p0, p1, p2, p3] d 0 0 0).bind fun q =>
        adjust_plane q (-d) 0 0 0).bind bounds_xy
        = bounds_xy [p0, p1, p2, p3]) ∧
    (¬(p1.z = p0.z ∧ p2.z = p0.z ∧ p3.z = p0.z) →
      adjust_plane [p0, p1, p2, p3] xe ye xo yo = none) := by
  have hABx : min (min (min p0.x p1.x) p2.x) p3.x
      ≤ max (max (max p0.x p1.x) p2.x) p3.x :=
    le_trans (min4_le _ _ _ _) (le_max4 _ _ _ _)
  have hCDy : min (min (min p0.y p1.y) p2.y) p3.y
      ≤ max (max (max p0.y p1.y) p2.y) p3.y :=
    le_trans (min4_le _ _ _ _) (le_max4 _ _ _ _)
  refine ⟨?_, ?_, ?_⟩
  · rintro ⟨hz1, hz2, hz3⟩
    rw [adjust_plane_four p0 p1 p2 p3 0 0 0 0 hz1 hz2 hz3, Option.some_bind,
      bounds_xy_four, bounds_xy_four]
    dsimp only
    simp only [add_zero, sub_zero]
    rw [min4_collapse _ _ hABx, max4_collapse _ _ hABx,
      min4_collapse2 _ _ hCDy, max4_collapse2 _ _ hCDy]
  · rintro ⟨hz1, hz2, hz3⟩ hno
    rw [adjust_plane_four p0 p1 p2 p3 d 0 0 0 hz1 hz2 hz3, Option.some_bind]
    simp only [add_zero, sub_zero]
    rw [adjust_plane_four
      ⟨min (min (min p0.x p1.x) p2.x) p3.x - d, min (min (min p0.y p1.y) p2.y) p3.y, p0.z⟩
      ⟨max (max (max p0.x p1.x) p2.x) p3.x + d, min (min (min p0.y p1.y) p2.y) p3.y, p0.z⟩
      ⟨max (max (max p0.x p1.x) p2.x) p3.x + d, max (max (max p0.y p1.y) p2.y) p3.y, p0.z⟩
      ⟨min (min (min p0.x p1.x) p2.x) p3.x - d, max (max (max p0.y p1.y) p2.y) p3.y, p0.z⟩
      (-d) 0 0 0 rfl rfl rfl]
    dsimp only
    rw [min4_collapse _ _ hno, max4_collapse _ _ hno,
      min4_collapse2 _ _ hCDy, max4_collapse2 _ _ hCDy]
    rw [Option.some_bind, bounds_xy_four, bounds_xy_four]
    dsimp only
    have e1 : min (min (min p0.x p1.x) p2.x) p3.x - d + 0 - -d
        = min (min (min p0.x p1.x) p2.x) p3.x := by ring
    have e2 : max (max (max p0.x p1.x) p2.x) p3.x + d + 0 + -d
        = max (max (max p0.x p1.x) p2.x) p3.x := by ring
    have e3 : min (min (min p0.y p1.y) p2.y) p3.y + 0 - 0
        = min (min (min p0.y p1.y) p2.y) p3.y := by ring
    have e4 : max (max (max p0.y p1.y) p2.y) p3.y + 0 + 0
        = max (max (max p0.y p1.y) p2.y) p3.y := by ring
    rw [e1, e2, e3, e4]
    rw [min4_collapse _ _ hABx, max4_collapse _ _ hABx,
      min4_collapse2 _ _ hCDy, max4_collapse2 _ _ hCDy]
  · intro hne
    have h1lt : 1 < (([p0, p1, p2, p3].map Pt.z).dedup).length := by
      simp only [List.map_cons, List.map_nil]
      by_cases e1 : p1.z = p0.z
      · by_cases e2 : p2.z = p0.z
        · have e3 : p3.z ≠ p0.z := by tauto
          exact @one_lt_dedup_length [p0.z, p1.z, p2.z, p3.z] p0.z p3.z
            (by simp) (by simp) (Ne.symm e3)
        · exact @one_lt_dedup_length [p0.z, p1.z, p2.z, p3.z] p0.z p2.z
            (by simp) (by simp) (Ne.symm e2)
      · exact @one_lt_dedup_length [p0.z, p1.z, p2.z, p3.z] p0.z p1.z
          (by simp) (by simp) (Ne.symm e1)
    rw [adjust_plane, if_pos h1lt]

/-- Witness for C7 (amended): the degenerate all-zero plane for the two
coplanar parts (with d = 0), and a non-coplanar plane for the
ValueError part. -/
theorem C7_witness :
    ((adjust_plane [(⟨0, 0, 0⟩ : Pt), ⟨0, 0, 0⟩, ⟨0, 0, 0⟩, ⟨0, 0, 0⟩] 0 0 0 0).bind
        bounds_xy
      = bounds_xy [(⟨0, 0, 0⟩ : Pt), ⟨0, 0, 0⟩, ⟨0, 0, 0⟩, ⟨0, 0, 0⟩]) ∧
    (((adjust_plane [(⟨0, 0, 0⟩ : Pt), ⟨0, 0, 0⟩, ⟨0, 0, 0⟩, ⟨0, 0, 0⟩] 0 0 0 0).bind
        fun q => adjust_plane q (-0) 0 0 0).bind bounds_xy
      = bounds_xy [(⟨0, 0, 0⟩ : Pt), ⟨0, 0, 0⟩, ⟨0, 0, 0⟩, ⟨0, 0, 0⟩]) ∧
    adjust_plane [(⟨0, 0, 0⟩ : Pt), ⟨0, 0, 1⟩, ⟨0, 0, 0⟩, ⟨0, 0, 0⟩] 2 3 5 7 = none :=
  ⟨(C7_adjust_plane_amended ⟨0, 0, 0⟩ ⟨0, 0, 0⟩ ⟨0, 0, 0⟩ ⟨0, 0, 0⟩ 0 0 0 0 0).1
      ⟨rfl, rfl, rfl⟩,
   (C7_adjust_plane_amended ⟨0, 0, 0⟩ ⟨0, 0, 0⟩ ⟨0, 0, 0⟩ ⟨0, 0, 0⟩ 0 0 0 0 0).2.1
      ⟨rfl, rfl, rfl⟩ (by simp),
   (C7_adjust_plane_amended ⟨0, 0, 0⟩ ⟨0, 0, 1⟩ ⟨0, 0, 0⟩ ⟨0, 0, 0⟩ 0 2 3 5 7).2.2
      (by simp)⟩

/-- `well_separated` returns true exactly when the candidate's distance
to every accepted point exceeds `min_dist`. -/
theorem well_separated_iff (x_y_list : List (ℚ × ℚ)) (cx cy : ℚ) (d : ℚ) :
    well_separated x_y_list cx cy d = true ↔
      ∀ q ∈ x_y_list, dist_gt (cx, cy) q d = true := by
  rw [well_separated]
  rcases x_y_list with _ | ⟨a, l⟩
  · simp
  · rw [if_neg (by simp)]
    have hiff := @List.filter_length_eq_length _ (fun p => dist_gt (cx, cy) p d) (a :: l)
    constructor
    · intro h
      split at h
      · rename_i hf; exact hiff.mp hf
      · exact absurd h (by simp)
    · intro h
      rw [if_pos (hiff.mpr h)]

/-- The inner sampling loop: when the support object is not ignored, a
candidate accepted without hitting the retry cap is well separated from
every previously accepted position, and the loop always stops after at
most 50002 - count further draws. -/
theorem sample_candidate_spec (min_dist : ℚ) (x_y_list : List (ℚ × ℚ))
    (stream : ℕ → ℚ × ℚ) :
    ∀ fuel k count, 50001 - count ≤ fuel →
      ((sample_candidate false min_dist x_y_list stream k count).cap = false →
        well_separated x_y_list
          (sample_candidate false min_dist x_y_list stream k count).pt.1
          (sample_candidate false min_dist x_y_list stream k count).pt.2 min_dist
          = true) ∧
      (sample_candidate false min_dist x_y_list stream k count).next
        ≤ k + (50001 - count) + 1 := by
  intro fuel
  induction fuel with
  | zero =>
    intro k count hc
    rw [sample_candidate]
    simp only [Bool.false_eq_true, if_false]
    split
    · constructor
      · intro _; assumption
      · dsimp only; omega
    · rw [dif_pos (by omega)]
      constructor
      · intro h; exact absurd h (by simp)
      · dsimp only; omega
  | succ fuel ih =>
    intro k count hc
    rw [sample_candidate]
    simp only [Bool.false_eq_true, if_false]
    split
    · constructor
      · intro _; assumption
      · dsimp only; omega
    · split
      · constructor
        · intro h; exact absurd h (by simp)
        · dsimp only; omega
      · have h2 := ih (k + 1) (count + 1) (by omega)
        refine ⟨h2.1, ?_⟩
        have := h2.2
        omega

/-- The outer loop accepts exactly one position per requested pose. -/
theorem gen_xy_length (ignore : Bool) (min_dist : ℚ) (stream : ℕ → ℚ × ℚ) :
    ∀ n k x_y_list, (gen_xy ignore min_dist stream n k x_y_list).length = n := by
  intro n
  induction n with
  | zero => intro k xy; rfl
  | succ n ih => intro k xy; rw [gen_xy]; simp [ih]

/-- Any position accepted without hitting the retry cap (support object
not ignored) is well separated from the initial list and from every
earlier accepted position of the same call. -/
theorem gen_xy_sep (min_dist : ℚ) (stream : ℕ → ℚ × ℚ) :
    ∀ (n k : ℕ) (x_y_list : List (ℚ × ℚ)) (j : ℕ) (p : ℚ × ℚ),
      (gen_xy false min_dist stream n k x_y_list)[j]? = some (p, false) →
      ∀ q ∈ x_y_list
          ++ ((gen_xy false min_dist stream n k x_y_list).take j).map Prod.fst,
        dist_gt p q min_dist = true := by
  intro n
  induction n with
  | zero => intro k xy j p hp; simp [gen_xy] at hp
  | succ n ih =>
    intro k xy j p hp q hq
    simp only [gen_xy] at hp hq
    rcases j with _ | j
    · rw [List.getElem?_cons_zero, Option.some_inj, Prod.mk.injEq] at hp
      obtain ⟨hpt, hcap⟩ := hp
      simp only [List.take_zero, List.map_nil, List.append_nil] at hq
      have hs := (sample_candidate_spec min_dist xy stream 50001 k 0 (by omega)).1 hcap
      rw [well_separated_iff] at hs
      have hd := hs q hq
      rw [← hpt]
      simpa using hd
    · rw [List.getElem?_cons_succ] at hp
      rw [List.take_succ_cons] at hq
      have hq2 : q ∈ (xy ++ [(sample_candidate false min_dist xy stream k 0).pt]) ++
          ((gen_xy false min_dist stream n
            (sample_candidate false min_dist xy stream k 0).next
            (xy ++ [(sample_candidate false min_dist xy stream k 0).pt])).take j).map
            Prod.fst := by
        simp only [List.map_cons, List.mem_append, List.mem_cons, List.mem_singleton]
          at hq ⊢
        tauto
      exact ih _ _ j p hp q hq2

/-- C1: in gen_place_poses_from_plane, when the support object is not in
the ignore-min-dist allow-list, every pair of accepted (x, y) positions
whose later member was accepted without hitting the 50000-retry cap
exceeds the effective minimum-separation threshold (0.03 when more than
100 poses are requested, otherwise min_dist); moreover the call accepts
exactly `number_of_poses` positions, and every run of the inner sampling
loop consumes at most 50002 - count random draws, so the sampling loop
terminates for every input and never loops forever. -/
theorem C1_separation_and_termination (support_object : String)
    (ignore_min_dist_list : List String) (number_of_poses : ℕ) (min_dist : ℚ)
    (stream : ℕ → ℚ × ℚ)
    (hig : ignore_min_dist_list.contains support_object = false) :
    (gen_place_xy support_object ignore_min_dist_list number_of_poses min_dist
        stream).length = number_of_poses ∧
    (∀ (i j : ℕ) (a : ℚ × ℚ) (b : Bool) (c : ℚ × ℚ), i < j →
      (gen_place_xy support_object ignore_min_dist_list number_of_poses min_dist
        stream)[i]? = some (a, b) →
      (gen_place_xy support_object ignore_min_dist_list number_of_poses min_dist
        stream)[j]? = some (c, false) →
      dist_gt c a (if 100 < number_of_poses then 3 / 100 else min_dist) = true) ∧
    (∀ (x_y_list : List (ℚ × ℚ)) (k count : ℕ),
      (sample_candidate (ignore_min_dist_list.contains support_object)
        (if 100 < number_of_poses then 3 / 100 else min_dist)
        x_y_list stream k count).next ≤ k + (50001 - count) + 1) := by
  refine ⟨?_, ?_, ?_⟩
  · rw [gen_place_xy, hig]
    exact gen_xy_length false _ stream number_of_poses 0 []
  · intro i j a b c hij hi hj
    rw [gen_place_xy, hig] at hi hj
    have hsep := gen_xy_sep (if 100 < number_of_poses then 3 / 100 else min_dist)
      stream number_of_poses 0 [] j c hj a
    apply hsep
    rw [List.nil_append]
    apply List.mem_map.mpr
    refine ⟨(a, b), ?_, rfl⟩
    apply List.getElem?_mem
    rw [List.getElem?_take_of_lt hij]
    exact hi
  · intro xy k count
    rw [hig]
    exact (sample_candidate_spec (if 100 < number_of_poses then 3 / 100 else min_dist)
      xy stream (50001 - count) k count le_rfl).2

/-- Witness for C1: two requested poses on a support object with an
empty ignore list and the deterministic draw stream k ↦ (k, 0). -/
theorem C1_witness :
    (([] : List String).contains "box" = false) ∧
    ((gen_place_xy "box" [] 2 (1 / 5) fun k => ((k : ℚ), 0)).length = 2 ∧
    (∀ (i j : ℕ) (a : ℚ × ℚ) (b : Bool) (c : ℚ × ℚ), i < j →
      (gen_place_xy "box" [] 2 (1 / 5) fun k => ((k : ℚ), 0))[i]? = some (a, b) →
      (gen_place_xy "box" [] 2 (1 / 5) fun k => ((k : ℚ), 0))[j]? = some (c, false) →
      dist_gt c a (if 100 < 2 then 3 / 100 else 1 / 5) = true) ∧
    (∀ (x_y_list : List (ℚ × ℚ)) (k count : ℕ),
      (sample_candidate (([] : List String).contains "box")
        (if 100 < 2 then 3 / 100 else 1 / 5)
        x_y_list (fun k => ((k : ℚ), 0)) k count).next ≤ k + (50001 - count) + 1)) :=
  ⟨rfl, C1_separation_and_termination "box" [] 2 (1 / 5) (fun k => ((k : ℚ), 0)) rfl⟩

/-- The yaw values of the sweep form an arithmetic progression with
step 0.5 starting at the initial yaw. -/
theorem yaw_sweep_map_yaw (cls : String) (x y z : ℚ) (roll pitch : ℝ) :
    ∀ (m : ℕ) (yaw : ℝ) (pid : ℕ),
      (yaw_sweep cls x y z roll pitch yaw pid m).map PlacePose.yaw
        = (List.range m).map fun i : ℕ => yaw + (i : ℝ) * (1 / 2) := by
  intro m
  induction m with
  | zero => intro yaw pid; rfl
  | succ m ih =>
    intro yaw pid
    rw [yaw_sweep, List.map_cons, ih, List.range_succ_eq_map, List.map_cons,
      List.map_map]
    congr 1
    · dsimp only; norm_num
    · apply List.map_congr_left
      intro i _
      show yaw + 1 / 2 + (i : ℝ) * (1 / 2) = yaw + ((i + 1 : ℕ) : ℝ) * (1 / 2)
      push_cast
      ring

/-- The m-step yaw sweep emits exactly m poses. -/
theorem yaw_sweep_length (cls : String) (x y z : ℚ) (roll pitch : ℝ) :
    ∀ (m : ℕ) (yaw : ℝ) (pid : ℕ), (yaw_sweep cls x y z roll pitch yaw pid m).length = m := by
  intro m
  induction m with
  | zero => intro yaw pid; rfl
  | succ m ih => intro yaw pid; rw [yaw_sweep, List.length_cons, ih]

/-- The 7-step sweep starting at yaw 0 runs through exactly
0, 0.5, 1.0, 1.5, 2.0, 2.5, 3.0 radians. -/
theorem yaw_sweep_seven (cls : String) (x y z : ℚ) (roll pitch : ℝ) (pid : ℕ) :
    (yaw_sweep cls x y z roll pitch 0 pid 7).map PlacePose.yaw = yaw7 := by
  rw [yaw_sweep_map_yaw]
  have h7 : List.range 7 = [0, 1, 2, 3, 4, 5, 6] := rfl
  rw [h7, yaw7]
  norm_num

/-- With more than 20 requested poses, every accepted position expands
into the 7-yaw sweep: the yaw column is m copies of the 0..3.0 pattern
and the output length is 7 per position. -/
theorem gen_place_loop_gt20 (cls : String) (ignore : Bool) (nTotal : ℕ)
    (md z : ℚ) (s : ℕ → ℚ × ℚ) (ys : ℕ → ℝ) (h : 20 < nTotal) :
    ∀ (m k j pid : ℕ) (xy : List (ℚ × ℚ)),
      (gen_place_loop cls ignore nTotal md z s ys m k j pid xy).map PlacePose.yaw
        = (List.replicate m yaw7).flatten ∧
      (gen_place_loop cls ignore nTotal md z s ys m k j pid xy).length = 7 * m := by
  intro m
  induction m with
  | zero => intro k j pid xy; exact ⟨rfl, rfl⟩
  | succ m ih =>
    intro k j pid xy
    rw [gen_place_loop]
    simp only [if_pos h]
    constructor
    · rw [List.map_append, yaw_sweep_seven, (ih _ _ _ _).1, List.replicate_succ,
        List.flatten_cons]
    · rw [List.length_append, yaw_sweep_length, (ih _ _ _ _).2]
      ring

/-- With at most 20 requested poses, each accepted position emits
exactly one pose. -/
theorem gen_place_loop_le20 (cls : String) (ignore : Bool) (nTotal : ℕ)
    (md z : ℚ) (s : ℕ → ℚ × ℚ) (ys : ℕ → ℝ) (h : ¬ 20 < nTotal) :
    ∀ (m k j pid : ℕ) (xy : List (ℚ × ℚ)),
      (gen_place_loop cls ignore nTotal md z s ys m k j pid xy).length = m := by
  intro m
  induction m with
  | zero => intro k j pid xy; rfl
  | succ m ih =>
    intro k j pid xy
    rw [gen_place_loop]
    simp only [if_neg h]
    rw [List.length_append, ih _ _ _ _, List.length_singleton]
    omega

/-- C8: whenever the requested pose count exceeds 20, every accepted
(x, y) position is expanded into exactly 7 output poses whose yaw values
are 0, 0.5, 1.0, 1.5, 2.0, 2.5, 3.0 radians, multiplying the output
count by 7; for counts of 20 or fewer, each accepted position yields
exactly one pose. -/
theorem C8_yaw_sweep_expansion (object_class support_object : String)
    (number_of_poses : ℕ) (min_dist : ℚ) (ignore_min_dist_list : List String)
    (z_height : ℚ) (stream : ℕ → ℚ × ℚ) (yaw_stream : ℕ → ℝ) :
    (20 < number_of_poses →
      (gen_place_poses_from_plane object_class support_object number_of_poses
          min_dist ignore_min_dist_list z_height stream yaw_stream).map PlacePose.yaw
        = (List.replicate number_of_poses yaw7).flatten ∧
      (gen_place_poses_from_plane object_class support_object number_of_poses
          min_dist ignore_min_dist_list z_height stream yaw_stream).length
        = 7 * number_of_poses) ∧
    (number_of_poses ≤ 20 →
      (gen_place_poses_from_plane object_class support_object number_of_poses
          min_dist ignore_min_dist_list z_height stream yaw_stream).length
        = number_of_poses) := by
  constructor
  · intro h
    rw [gen_place_poses_from_plane]
    exact gen_place_loop_gt20 _ _ _ _ _ _ _ h number_of_poses 0 0 1 []
  · intro h
    rw [gen_place_poses_from_plane]
    exact gen_place_loop_le20 _ _ _ _ _ _ _ (not_lt.mpr h) number_of_poses 0 0 1 []

/-- Witness for C8: 21 requested poses trigger the 7-fold sweep, 2
requested poses do not. -/
theorem C8_witness :
    ((gen_place_poses_from_plane "klt" "table_3" 21 (1 / 5) [] 1
        (fun k => ((k : ℚ), 0)) fun _ => 0).map PlacePose.yaw
      = (List.replicate 21 yaw7).flatten ∧
    (gen_place_poses_from_plane "klt" "table_3" 21 (1 / 5) [] 1
        (fun k => ((k : ℚ), 0)) fun _ => 0).length = 7 * 21) ∧
    (gen_place_poses_from_plane "klt" "table_3" 2 (1 / 5) [] 1
        (fun k => ((k : ℚ), 0)) fun _ => 0).length = 2 :=
  ⟨(C8_yaw_sweep_expansion "klt" "table_3" 21 (1 / 5) [] 1
      (fun k => ((k : ℚ), 0)) (fun _ => 0)).1 (by decide),
   (C8_yaw_sweep_expansion "klt" "table_3" 2 (1 / 5) [] 1
      (fun k => ((k : ℚ), 0)) (fun _ => 0)).2 (by decide)⟩

/-- `quaternion_from_euler` with only a yaw angle is the pure z-axis
rotation quaternion. -/
theorem quaternion_from_euler_yaw (s : ℝ) :
    quaternion_from_euler 0 0 s = ⟨0, 0, Real.sin (s / 2), Real.cos (s / 2)⟩ := by
  rw [quaternion_from_euler]
  simp

/-- The Hamilton product is associative. -/
theorem quaternion_multiply_assoc (a b c : Quat) :
    quaternion_multiply (quaternion_multiply a b) c
      = quaternion_multiply a (quaternion_multiply b c) := by
  simp only [quaternion_multiply, Quat.mk.injEq]
  refine ⟨by ring, by ring, by ring, by ring⟩

/-- Composing two z-axis rotations adds their angles. -/
theorem yaw_mul (a b : ℝ) :
    quaternion_multiply (quaternion_from_euler 0 0 a) (quaternion_from_euler 0 0 b)
      = quaternion_from_euler 0 0 (a + b) := by
  rw [quaternion_from_euler_yaw, quaternion_from_euler_yaw, quaternion_from_euler_yaw]
  simp only [quaternion_multiply, Quat.mk.injEq]
  refine ⟨by ring, by ring, ?_, ?_⟩
  · rw [add_div, Real.sin_add]; ring
  · rw [add_div, Real.cos_add]; ring

/-- The circular-pattern chain appends exactly m poses. -/
theorem chain_poses_length (s : ℝ) :
    ∀ (m : ℕ) (g : PoseR), (chain_poses s g m).length = m := by
  intro m
  induction m with
  | zero => intro g; rfl
  | succ m ih => intro g; rw [chain_poses, List.length_cons, ih]

/-- The first chained pose is the rotation of the starting pose. -/
theorem chain_poses_zero (s : ℝ) (g : PoseR) (m : ℕ) :
    (chain_poses s g (m + 1))[0]? = some (rotate_pose g 0 0 s) := by
  rw [chain_poses, List.getElem?_cons_zero]

/-- Each chained pose is the previous chained pose rotated by the step
(the chain rotates the previously generated pose, not the original). -/
theorem chain_poses_step (s : ℝ) :
    ∀ (m : ℕ) (g : PoseR) (i : ℕ), i + 1 < m →
      (chain_poses s g m)[i + 1]? = ((chain_poses s g m)[i]?).map
        fun p => rotate_pose p 0 0 s := by
  intro m
  induction m with
  | zero => intro g i h; omega
  | succ m ih =>
    intro g i h
    rw [chain_poses]
    rcases i with _ | i
    · rw [List.getElem?_cons_succ, List.getElem?_cons_zero]
      rcases m with _ | m
      · omega
      · rw [chain_poses, List.getElem?_cons_zero]
        rfl
    · rw [List.getElem?_cons_succ, List.getElem?_cons_succ]
      exact ih _ i (by omega)

/-- The orientation of the last chained pose is the starting orientation
rotated about z by (chain length) × step, exactly. -/
theorem chain_poses_last (s : ℝ) :
    ∀ (m : ℕ) (g : PoseR),
      ((chain_poses s g (m + 1)).getLast?).map PoseR.ori
        = some (quaternion_multiply
            (quaternion_from_euler 0 0 (((m + 1 : ℕ) : ℝ) * s)) g.ori) := by
  intro m
  induction m with
  | zero =>
    intro g
    have e2 : (((0 + 1 : ℕ)) : ℝ) * s = s := by push_cast; ring
    rw [e2]
    rfl
  | succ m ih =>
    intro g
    rw [chain_poses]
    have hne : chain_poses s (rotate_pose g 0 0 s) (m + 1) ≠ [] := by
      intro hc
      have hl := chain_poses_length s (m + 1) (rotate_pose g 0 0 s)
      rw [hc] at hl
      simp at hl
    rw [show rotate_pose g 0 0 s :: chain_poses s (rotate_pose g 0 0 s) (m + 1)
        = [rotate_pose g 0 0 s] ++ chain_poses s (rotate_pose g 0 0 s) (m + 1) from rfl,
      List.getLast?_append_of_ne_nil _ hne, ih]
    rw [rotate_pose]
    show some (quaternion_multiply _ (rotate_quaternion g.ori 0 0 s)) = _
    rw [rotate_quaternion, ← quaternion_multiply_assoc, yaw_mul]
    have e3 : ((m + 1 : ℕ) : ℝ) * s + s = ((m + 1 + 1 : ℕ) : ℝ) * s := by
      push_cast
      ring
    rw [e3]

/-- C4: for a selected pose, the circular pattern with step S and count
N appends exactly N-1 poses after the original list; the first appended
pose is the selected pose rotated by S about the checked (z) axis, each
further appended pose is the previously generated pose (not the
original) rotated by S, the last appended pose's orientation is exactly
the selected pose's orientation rotated by (N-1)×S about z (hence equal
to it modulo 2π as a rotation), and afterwards the most recently added
pose's index becomes the selection. -/
theorem C4_circular_pattern (poses : List PoseR) (sel : ℕ) (ang_step : ℝ)
    (number_of_grasps : ℕ) (_hsel : sel < poses.length) :
    (circular_pattern_z poses sel ang_step number_of_grasps).1.length
        = poses.length + (number_of_grasps - 1) ∧
    (circular_pattern_z poses sel ang_step number_of_grasps).1.take poses.length
        = poses ∧
    (2 ≤ number_of_grasps →
      (circular_pattern_z poses sel ang_step number_of_grasps).1[poses.length]?
        = some (rotate_pose (poses.getD sel default_pose) 0 0 ang_step)) ∧
    (∀ i : ℕ, i + 1 < number_of_grasps - 1 →
      (circular_pattern_z poses sel ang_step number_of_grasps).1[poses.length + (i + 1)]?
        = ((circular_pattern_z poses sel ang_step
            number_of_grasps).1[poses.length + i]?).map
            fun p => rotate_pose p 0 0 ang_step) ∧
    (2 ≤ number_of_grasps →
      ((circular_pattern_z poses sel ang_step number_of_grasps).1.getLast?).map PoseR.ori
        = some (quaternion_multiply
            (quaternion_from_euler 0 0 (((number_of_grasps - 1 : ℕ) : ℝ) * ang_step))
            (poses.getD sel default_pose).ori) ∧
      (circular_pattern_z poses sel ang_step number_of_grasps).2
        = ((circular_pattern_z poses sel ang_step number_of_grasps).1.length : ℤ) - 1) := by
  have hF : (circular_pattern_z poses sel ang_step number_of_grasps).1
      = poses ++ chain_poses ang_step (poses.getD sel default_pose)
          (number_of_grasps - 1) := rfl
  refine ⟨?_, ?_, ?_, ?_, ?_⟩
  · rw [hF, List.length_append, chain_poses_length]
  · rw [hF, List.take_left]
  · intro h2
    obtain ⟨m, hm⟩ : ∃ m, number_of_grasps - 1 = m + 1 := ⟨number_of_grasps - 2, by omega⟩
    rw [hF, List.getElem?_append_right (le_refl _), Nat.sub_self, hm, chain_poses_zero]
  · intro i hi
    rw [hF, List.getElem?_append_right (by omega : poses.length ≤ poses.length + (i + 1)),
      List.getElem?_append_right (by omega : poses.length ≤ poses.length + i)]
    have e1 : poses.length + (i + 1) - poses.length = i + 1 := by omega
    have e2 : poses.length + i - poses.length = i := by omega
    rw [e1, e2]
    exact chain_poses_step ang_step _ _ i hi
  · intro h2
    obtain ⟨m, hm⟩ : ∃ m, number_of_grasps - 1 = m + 1 := ⟨number_of_grasps - 2, by omega⟩
    have hne : chain_poses ang_step (poses.getD sel default_pose)
        (number_of_grasps - 1) ≠ [] := by
      intro hc
      have hl := chain_poses_length ang_step (number_of_grasps - 1)
        (poses.getD sel default_pose)
      rw [hc] at hl
      simp at hl
      omega
    constructor
    · rw [hF, List.getLast?_append_of_ne_nil _ hne, hm, chain_poses_last]
    · show (if number_of_grasps - 1 = 0 then (sel : ℤ)
        else ((poses.length + (chain_poses ang_step (poses.getD sel default_pose)
          (number_of_grasps - 1)).length : ℕ) : ℤ) - 1) = _
      rw [if_neg (by omega), hF, List.length_append, chain_poses_length]

/-- Witness for C4: a one-pose list, angular step 1 radian, count 3. -/
theorem C4_witness :
    (circular_pattern_z [default_pose] 0 1 3).1.length = [default_pose].length + (3 - 1) ∧
    (circular_pattern_z [default_pose] 0 1 3).1.take [default_pose].length
        = [default_pose] ∧
    (2 ≤ 3 →
      (circular_pattern_z [default_pose] 0 1 3).1[[default_pose].length]?
        = some (rotate_pose ([default_pose].getD 0 default_pose) 0 0 1)) ∧
    (∀ i : ℕ, i + 1 < 3 - 1 →
      (circular_pattern_z [default_pose] 0 1 3).1[[default_pose].length + (i + 1)]?
        = ((circular_pattern_z [default_pose] 0 1 3).1[[default_pose].length + i]?).map
            fun p => rotate_pose p 0 0 1) ∧
    (2 ≤ 3 →
      ((circular_pattern_z [default_pose] 0 1 3).1.getLast?).map PoseR.ori
        = some (quaternion_multiply (quaternion_from_euler 0 0 (((3 - 1 : ℕ) : ℝ) * 1))
            ([default_pose].getD 0 default_pose).ori) ∧
      (circular_pattern_z [default_pose] 0 1 3).2
        = ((circular_pattern_z [default_pose] 0 1 3).1.length : ℤ) - 1) :=
  C4_circular_pattern [default_pose] 0 1 3 (by simp)

/-- C5: applying the mirror operation (new = Δq ⬝ q_orig with Δq the
180° rotation about the checked axis) twice about the same axis — roll,
pitch or yaw — returns exactly the negated quaternion, i.e. the original
orientation up to quaternion sign, for every quaternion. -/
theorem C5_mirror_involution (q : Quat) :
    rotate_quaternion (rotate_quaternion q Real.pi 0 0) Real.pi 0 0 = quat_neg q ∧
    rotate_quaternion (rotate_quaternion q 0 Real.pi 0) 0 Real.pi 0 = quat_neg q ∧
    rotate_quaternion (rotate_quaternion q 0 0 Real.pi) 0 0 Real.pi = quat_neg q := by
  refine ⟨?_, ?_, ?_⟩ <;>
  · simp only [rotate_quaternion, quaternion_from_euler, quaternion_multiply, quat_neg,
      Quat.mk.injEq]
    simp [Real.cos_pi_div_two, Real.sin_pi_div_two]

end Grasplan
